import Mathlib

/-!
# Verification of the xylo normalization/derivation pipeline

Shallow embedding of the core data path of `presentation_builder`:

* `logic/api_handler.py` — request building, response flattening, period
  resolution, value extraction, unit normalization and canonical assembly
  (`fetch_company_by_ticker`, `fetch_data_from_api`, `parse_to_table`);
* `logic/financial_analysis.py` — ratio engine
  (`calculate_financial_ratios` and friends), trend engine
  (`calculate_trend_analysis`) and `add_moving_averages`.

Python strings that the code inspects character by character are modelled as
`List Char`; Python `int`/`float` cell payloads are modelled as `ℚ` (the
special floats `inf`/`nan` produced by pandas arithmetic are modelled
explicitly by dedicated cell constructors).  Machine floating point rounding
is irrelevant to the properties checked here: every computation at issue is
exact on the sample magnitudes involved.
-/

namespace Xylo

/-! ## Python string primitives (on `List Char`) -/

/-- Python `str.isdigit` restricted to ASCII digits, which is all the data
uses.  Python `''.isdigit()` is `False`; emptiness is checked separately
where the source relies on it. -/
def pyIsDigitCh (c : Char) : Bool := '0' ≤ c && c ≤ '9'

/-- Python `s.isdigit()`: nonempty and all digits. -/
def pyAllDigits (s : List Char) : Bool := !s.isEmpty && s.all pyIsDigitCh

/-- Python `int(s)` on a digit string. -/
def digitsVal (s : List Char) : Nat :=
  s.foldl (fun a c => a * 10 + (c.toNat - '0'.toNat)) 0

/-- Python `s.split(sep)` (single-character separator). -/
def pySplitGo (sep : Char) (acc : List Char) : List Char → List (List Char)
  | [] => [acc.reverse]
  | c :: r => if c = sep then acc.reverse :: pySplitGo sep [] r
              else pySplitGo sep (c :: acc) r

def pySplit (sep : Char) (s : List Char) : List (List Char) :=
  pySplitGo sep [] s

/-- Python `needle in hay` for strings (substring test).  `'' in s` is
`True`, as in Python. -/
def pyInSub (needle : List Char) : List Char → Bool
  | [] => needle.isEmpty
  | c :: r => needle.isPrefixOf (c :: r) || pyInSub needle r

/-- Python `c in s` for a single character. -/
def pyHasCh (c : Char) (s : List Char) : Bool := s.any (· = c)

/-- Python `s.lower()` (ASCII). -/
def pyLower (s : List Char) : List Char := s.map Char.toLower

/-- Python `s.upper()` (ASCII) on a Lean `String`. -/
def pyUpperStr (s : String) : String := String.mk (s.data.map Char.toUpper)

/-- Python `s.strip()` (the data only ever carries plain spaces). -/
def pyStrip (s : List Char) : List Char :=
  ((s.dropWhile (· = ' ')).reverse.dropWhile (· = ' ')).reverse

/-- Python `s.replace(',', '')`. -/
def stripCommas (s : List Char) : List Char := s.filter (· ≠ ',')

/-- Decimal digits of a natural number, most significant first
(fuel-based so that it reduces by `decide`). -/
def natCharsGo : Nat → Nat → List Char
  | 0, _ => []
  | fuel + 1, n =>
    if n < 10 then [Char.ofNat ('0'.toNat + n)]
    else natCharsGo fuel (n / 10) ++ [Char.ofNat ('0'.toNat + n % 10)]

def natChars (n : Nat) : List Char := natCharsGo (n + 1) n

/-- Python `str(i)` for an integer. -/
def pyStrInt (i : Int) : List Char :=
  if i < 0 then '-' :: natChars i.natAbs else natChars i.toNat

/-- Python `range(a, b)` over integers. -/
def pyRangeInt (a b : Int) : List Int :=
  (List.range (b - a).toNat).map (fun (i : Nat) => a + (i : Int))

/-! ## Period Resolver — `api_handler.py` lines 414–442

The year-decoding rules applied to the raw period token inside
`fetch_company_by_ticker`, in source order.  Each guard is a named
predicate so the priority order is visible in the definition. -/

/-- Line 416: `period and period.startswith('FY') and len(period) > 2 and
period[2:].isdigit()`. -/
def absCond (p : List Char) : Bool :=
  !p.isEmpty && ['F', 'Y'].isPrefixOf p && decide (p.length > 2)
    && pyAllDigits (p.drop 2)

/-- Line 420: `period and 'FY' in period and '-' in period`. -/
def relMinusCond (p : List Char) : Bool :=
  !p.isEmpty && pyInSub ['F', 'Y'] p && pyHasCh '-' p

/-- Line 426: `period and 'FY' in period and '+' in period`. -/
def relPlusCond (p : List Char) : Bool :=
  !p.isEmpty && pyInSub ['F', 'Y'] p && pyHasCh '+' p

/-- Line 433: `period == 'IQ_FY-0' or period == 'IQ_FY+0' or period == 'IQ_FY'`.
(The first two alternatives are in fact shadowed by the relative rules,
which give the same result.) -/
def sentinelCond (p : List Char) : Bool :=
  p = "IQ_FY-0".data || p = "IQ_FY+0".data || p = "IQ_FY".data

/-- Lines 421–425: split on `'-'` and read a negative offset. -/
def relMinusRes (p : List Char) (cy : Int) : Option Int :=
  let parts := pySplit '-' p
  if parts.length > 1 && pyAllDigits (parts.getD 1 []) then
    some (cy - (digitsVal (parts.getD 1 []) : Int))
  else none

/-- Lines 427–431: split on `'+'` and read a positive offset. -/
def relPlusRes (p : List Char) (cy : Int) : Option Int :=
  let parts := pySplit '+' p
  if parts.length > 1 && pyAllDigits (parts.getD 1 []) then
    some (cy + (digitsVal (parts.getD 1 []) : Int))
  else none

/-- Lines 437–442: `for year_candidate in range(current_year - 10,
current_year + 2): if str(year_candidate) in period: ...` — note the Python
`range` excludes its upper bound, so the last candidate is
`current_year + 1`. -/
def fallbackScan (p : List Char) (cy : Int) : Option Int :=
  (pyRangeInt (cy - 10) (cy + 2)).find? (fun c => pyInSub (pyStrInt c) p)

/-- The period-token part of the year resolution (lines 414–442).  When a
rule's outer guard matches but its inner parse fails, the chain of `elif`s
is abandoned with no year, exactly as in the source. -/
def resolvePeriodToken (p : List Char) (cy : Int) : Option Int :=
  if absCond p then some (digitsVal (p.drop 2) : Int)
  else if relMinusCond p then relMinusRes p cy
  else if relPlusCond p then relPlusRes p cy
  else if sentinelCond p then some cy
  else fallbackScan p cy

/-! ## Unit Normalizer — `api_handler.py` lines 536–553 -/

/-- The `if/elif` chain that rescales an extracted value, keyed by the
metric mnemonic.  Translated branch for branch: note that the
market-cap trillions branch (`value < 100`) sits inside the
`value > 1000` guard. -/
def normalize_value (mn : String) (v : ℚ) : ℚ :=
  if mn = "IQ_PE_RATIO" ∨ mn = "IQ_PRICE_CLOSE" then v
  else if mn = "IQ_MARKETCAP" ∧ v > 1000 then
    (if v > 1000000 then v * 1000
     else if v < 100 then v * 1000000
     else v)
  else if |v| > 1000000 ∧ ¬(mn = "IQ_PE_RATIO" ∨ mn = "IQ_PRICE_CLOSE") then
    v / 1000000
  else v

/-! ## The analysis DataFrame model — `financial_analysis.py`

A pandas DataFrame of numeric columns: a list of column names and rows of
cells aligned positionally.  A cell is a float: a rational, `NaN`
(pandas' missing marker) or a signed infinity, mirroring IEEE results of
the vectorized arithmetic the ratio/trend code performs. -/

inductive ACell where
  | na
  | num (q : ℚ)
  | pinf
  | ninf
deriving DecidableEq, Repr

structure Frame where
  cols : List String
  rows : List (List ACell)
deriving DecidableEq, Repr

namespace ACell

/-- IEEE division as performed by pandas column arithmetic: `x / 0` is
`±inf` for `x ≠ 0` and `NaN` for `0 / 0`; `NaN` propagates. -/
def div : ACell → ACell → ACell
  | na, _ => na
  | _, na => na
  | num a, num b =>
    if b = 0 then (if a = 0 then na else if 0 < a then pinf else ninf)
    else num (a / b)
  | num _, pinf => num 0
  | num _, ninf => num 0
  | pinf, num b => if b < 0 then ninf else pinf
  | ninf, num b => if b < 0 then pinf else ninf
  | pinf, pinf => na
  | pinf, ninf => na
  | ninf, pinf => na
  | ninf, ninf => na

def mul : ACell → ACell → ACell
  | na, _ => na
  | _, na => na
  | num a, num b => num (a * b)
  | num a, pinf => if a = 0 then na else if 0 < a then pinf else ninf
  | num a, ninf => if a = 0 then na else if 0 < a then ninf else pinf
  | pinf, num b => if b = 0 then na else if 0 < b then pinf else ninf
  | ninf, num b => if b = 0 then na else if 0 < b then ninf else pinf
  | pinf, pinf => pinf
  | pinf, ninf => ninf
  | ninf, pinf => ninf
  | ninf, ninf => pinf

def sub : ACell → ACell → ACell
  | na, _ => na
  | _, na => na
  | num a, num b => num (a - b)
  | num _, pinf => ninf
  | num _, ninf => pinf
  | pinf, num _ => pinf
  | ninf, num _ => ninf
  | pinf, pinf => na
  | ninf, ninf => na
  | pinf, ninf => pinf
  | ninf, pinf => ninf

/-- Python `cell > 0` (NaN compares `False`). -/
def gtZero : ACell → Bool
  | num q => 0 < q
  | pinf => true
  | _ => false

def num? : ACell → Option ℚ
  | num q => some q
  | _ => none

end ACell

namespace Frame

/-- Column lookup; a missing column reads as all-`NaN` (never hit by the
source on the frames considered, but keeps the model total). -/
def getCol (f : Frame) (c : String) : List ACell :=
  match f.cols.indexOf? c with
  | some i => f.rows.map (fun r => r.getD i ACell.na)
  | none => f.rows.map (fun _ => ACell.na)

/-- `df[c] = vals`: overwrite an existing column in place or append a new
one on the right, as pandas column assignment does. -/
def setCol (f : Frame) (c : String) (vals : List ACell) : Frame :=
  match f.cols.indexOf? c with
  | some i => { f with rows := List.zipWith (fun r v => r.set i v) f.rows vals }
  | none => { cols := f.cols ++ [c],
              rows := List.zipWith (fun r v => r ++ [v]) f.rows vals }

end Frame

/-! ### Ratio Engine — `financial_analysis.py` lines 38–186 -/

/-- `'_' in col`. -/
def hasUnderscore (c : String) : Bool := pyHasCh '_' c.data

/-- `col.split('_')[-1]`. -/
def lastComp (c : String) : List Char := (pySplit '_' c.data).getLastD []

/-- The suffix-matching test used by every ratio block: either both column
names are unsuffixed or both carry the same final `_`-component. -/
def colsMatch (a b : String) : Bool :=
  (!hasUnderscore a && !hasUnderscore b)
    || (hasUnderscore a && hasUnderscore b && lastComp a = lastComp b)

/-- `suffix = f"_{col.split('_')[-1]}"` when the column is suffixed. -/
def suffixOf (a : String) : String :=
  if hasUnderscore a then "_" ++ String.mk (lastComp a) else ""

/-- One `for num_col: for den_col: if match: df[out+sfx] = df[num]/df[den](*100)`
block, shared by the profitability and liquidity ratio functions.  The
suffix is taken from the numerator column, as in the source. -/
def pairPass (numCols denCols : List String) (outName : String)
    (times100 : Bool) (df : Frame) : Frame :=
  numCols.foldl (fun acc ncol =>
    denCols.foldl (fun acc2 dcol =>
      if colsMatch ncol dcol then
        let q := List.zipWith ACell.div (acc2.getCol ncol) (acc2.getCol dcol)
        let q := if times100 then q.map (fun c => c.mul (ACell.num 100)) else q
        acc2.setCol (outName ++ suffixOf ncol) q
      else acc2) acc) df

/-- Lines 38–102. -/
def calculate_profitability_ratios (df : Frame) : Frame :=
  let revCols := df.cols.filter (fun c => pyInSub "TOTAL_REV".data c.data)
  let niCols := df.cols.filter (fun c => pyInSub "NI".data c.data && c ≠ "NI_MARGIN")
  let ebitdaCols := df.cols.filter (fun c => pyInSub "EBITDA".data c.data && c ≠ "EBITDA_MARGIN")
  let ebitCols := df.cols.filter (fun c => pyInSub "EBIT".data c.data && c ≠ "EBIT_MARGIN")
  let assetCols := df.cols.filter (fun c => pyInSub "TOTAL_ASSETS".data c.data)
  let d1 := pairPass ebitdaCols revCols "EBITDA_MARGIN" true df
  let d2 := pairPass niCols revCols "NET_PROFIT_MARGIN" true d1
  let d3 := pairPass niCols assetCols "ROA" true d2
  pairPass ebitCols revCols "EBIT_MARGIN" true d3

/-- Lines 105–138. -/
def calculate_liquidity_ratios (df : Frame) : Frame :=
  let cashCols := df.cols.filter (fun c => pyInSub "CASH_EQUIV".data c.data)
  let assetCols := df.cols.filter (fun c => pyInSub "TOTAL_ASSETS".data c.data)
  let liabCols := df.cols.filter (fun c => pyInSub "TOTAL_LIAB".data c.data)
  let d1 := pairPass cashCols liabCols "CASH_RATIO" false df
  pairPass liabCols assetCols "DEBT_TO_ASSET_RATIO" false d1

/-- Lines 141–145 (placeholder in the source). -/
def calculate_efficiency_ratios (df : Frame) : Frame := df

/-- Lines 148–174.  The debt-to-equity pass first materializes an
`EQUITY` column (assets − liabilities), then fills the ratio row-wise with
`liab / equity` guarded by `equity != 0` (Python `NaN != 0` is `True`, so
only an exact zero takes the `np.nan` branch). -/
def calculate_leverage_ratios (df : Frame) : Frame :=
  let assetCols := df.cols.filter (fun c => pyInSub "TOTAL_ASSETS".data c.data)
  let liabCols := df.cols.filter (fun c => pyInSub "TOTAL_LIAB".data c.data)
  liabCols.foldl (fun acc lcol =>
    assetCols.foldl (fun acc2 acol =>
      if colsMatch lcol acol then
        let sfx := suffixOf lcol
        let acc3 := acc2.setCol ("EQUITY" ++ sfx)
          (List.zipWith ACell.sub (acc2.getCol acol) (acc2.getCol lcol))
        acc3.setCol ("DEBT_TO_EQUITY_RATIO" ++ sfx)
          (List.zipWith
            (fun lv ev => if ev ≠ ACell.num 0 then lv.div ev else ACell.na)
            (acc3.getCol lcol) (acc3.getCol ("EQUITY" ++ sfx)))
      else acc2) acc) df

/-- Lines 177–186 (placeholder in the source). -/
def calculate_valuation_ratios (df : Frame) : Frame := df

/-- Lines 9–35: copy the input, then apply the five ratio passes in
order.  (Value level; the copy/aliasing discipline is modelled separately
below.) -/
def calculate_financial_ratios (df : Frame) : Frame :=
  calculate_valuation_ratios (calculate_leverage_ratios
    (calculate_efficiency_ratios (calculate_liquidity_ratios
      (calculate_profitability_ratios df))))

/-! ### Trend Engine — `financial_analysis.py` lines 189–251 -/

/-- `Series.mean()` with pandas' NaN skipping; an infinity dominates, and
opposite infinities give NaN. -/
def meanCell (l : List ACell) : ACell :=
  if l.contains ACell.pinf && l.contains ACell.ninf then ACell.na
  else if l.contains ACell.pinf then ACell.pinf
  else if l.contains ACell.ninf then ACell.ninf
  else
    let qs := l.filterMap ACell.num?
    if qs.isEmpty then ACell.na else ACell.num (qs.sum / qs.length)

/-- `Series.min()` (NaN-skipping). -/
def minCell (l : List ACell) : ACell :=
  if l.contains ACell.ninf then ACell.ninf
  else
    let qs := l.filterMap ACell.num?
    match qs with
    | [] => if l.contains ACell.pinf then ACell.pinf else ACell.na
    | q :: rest => ACell.num (rest.foldl min q)

/-- `Series.max()` (NaN-skipping). -/
def maxCell (l : List ACell) : ACell :=
  if l.contains ACell.pinf then ACell.pinf
  else
    let qs := l.filterMap ACell.num?
    match qs with
    | [] => if l.contains ACell.ninf then ACell.ninf else ACell.na
    | q :: rest => ACell.num (rest.foldl max q)

/-- `Series.pct_change()`: first entry NaN, then `x[i] / x[i-1] - 1`. -/
def pctChange : List ACell → List ACell
  | [] => []
  | x :: xs =>
    ACell.na ::
      List.zipWith (fun p c => (c.div p).sub (ACell.num 1)) (x :: xs) xs

/-- `Series.rolling(window=k).mean()`: NaN until `k` observations, NaN
whenever the trailing window contains a NaN (default `min_periods`). -/
def rollingMean (k : Nat) (l : List ACell) : List ACell :=
  (List.range l.length).map (fun i =>
    if i + 1 < k then ACell.na
    else
      let w := (l.take (i + 1)).drop (i + 1 - k)
      if w.contains ACell.na then ACell.na else meanCell w)

/-- Python `l[-k:]`. -/
def takeLast (k : Nat) (l : List ACell) : List ACell := l.drop (l.length - k)

/-- `first_valid_index` / `last_valid_index` on a column. -/
def firstValidIdx (l : List ACell) : Option Nat := l.findIdx? (· ≠ ACell.na)

def lastValidIdx (l : List ACell) : Option Nat :=
  match l.reverse.findIdx? (· ≠ ACell.na) with
  | some j => some (l.length - 1 - j)
  | none => none

/-- Insertion into a `Bool`-ordered list, used to model
`DataFrame.sort_values`. -/
def insSorted (le : α → α → Bool) (x : α) : List α → List α
  | [] => [x]
  | y :: ys => if le x y then x :: y :: ys else y :: insSorted le x ys

def insSort (le : α → α → Bool) : List α → List α
  | [] => []
  | x :: xs => insSorted le x (insSort le xs)

/-- Key order for `sort_values('Year')`: numeric ascending, NaN last. -/
def yearLe (a b : ACell) : Bool :=
  match a, b with
  | ACell.ninf, _ => true
  | _, ACell.na => true
  | ACell.na, _ => false
  | ACell.num x, ACell.num y => x ≤ y
  | ACell.num _, ACell.pinf => true
  | ACell.pinf, ACell.pinf => true
  | ACell.pinf, _ => false
  | ACell.num _, ACell.ninf => false

/-- `df.sort_values('Year')` (returns a new frame). -/
def sortByYear (f : Frame) : Frame :=
  match f.cols.indexOf? "Year" with
  | some i =>
    { f with rows := insSort (fun r1 r2 =>
        yearLe (r1.getD i ACell.na) (r2.getD i ACell.na)) f.rows }
  | none => f

/-- The CAGR guard result.  The source computes
`(end_val / start_val) ** (1 / n_years) - 1`, a real-valued power; the
model keeps the operands symbolic (`val start end n_years`), recording
exactly when the source reaches the computation (`len(df) >= 2`, both
valid indices exist, `n_years > 0` and `start_val > 0`) versus when it
stores `np.nan`. -/
inductive CagrRes where
  | undef
  | val (startv endv : ACell) (nYears : ℚ)
deriving DecidableEq, Repr

structure TrendEntry where
  latest : ACell
  avg : ACell
  minv : ACell
  maxv : ACell
  cagr : CagrRes
  recent : ACell
deriving DecidableEq, Repr

def cellToQ : ACell → ℚ
  | ACell.num q => q
  | _ => 0

/-- The per-metric body of `calculate_trend_analysis` (lines 209–249),
threading the evolving frame: the `_YOY` column is written first, CAGR is
guarded, the `_MA{k}` column is written when `len(df) >= k`, and
`recent_trend` reads the last `k` entries of the `_YOY` column only when
`len(df) >= k`. -/
def trendStep (k : Nat) (acc : Frame × List (String × TrendEntry))
    (m : String) : Frame × List (String × TrendEntry) :=
  let f := acc.1
  if !(f.cols.contains m) then acc
  else
    let col := f.getCol m
    let yoy := (pctChange col).map (fun c => c.mul (ACell.num 100))
    let f1 := f.setCol (m ++ "_YOY") yoy
    let cagr :=
      if f1.rows.length ≥ 2 then
        match firstValidIdx col, lastValidIdx col with
        | some i, some j =>
          let sv := col.getD i ACell.na
          let ev := col.getD j ACell.na
          let ny := ACell.sub ((f1.getCol "Year").getD j ACell.na)
            ((f1.getCol "Year").getD i ACell.na)
          if ny.gtZero && sv.gtZero then CagrRes.val sv ev (cellToQ ny)
          else CagrRes.undef
        | _, _ => CagrRes.undef
      else CagrRes.undef
    let f2 := if f1.rows.length ≥ k then
        f1.setCol (m ++ "_MA" ++ toString k) (rollingMean k col)
      else f1
    let entry : TrendEntry :=
      { latest := (f2.getCol m).getLastD ACell.na
        avg := meanCell col
        minv := minCell col
        maxv := maxCell col
        cagr := cagr
        recent := if f2.rows.length ≥ k then meanCell (takeLast k yoy)
                  else ACell.na }
    (f2, acc.2 ++ [(m, entry)])

/-- Lines 189–251 (value level).  Returns the frame the function worked on
(the sorted copy with its added columns) together with the results
mapping; when the guard `'Year' not in df.columns or df.empty` fires, the
input is returned untouched with an empty mapping. -/
def calculate_trend_analysis (df0 : Frame) (metrics : List String)
    (k : Nat) : Frame × List (String × TrendEntry) :=
  if !(df0.cols.contains "Year") || df0.rows.isEmpty then (df0, [])
  else metrics.foldl (trendStep k) (sortByYear df0, [])

/-- Lines 254–280 (value level): copy, sort by year when present, then add
`_MA{p}` columns for each requested column and period with enough rows. -/
def add_moving_averages (df0 : Frame) (columns : List String)
    (periods : List Nat) : Frame :=
  let r1 := if df0.cols.contains "Year" then sortByYear df0 else df0
  columns.foldl (fun acc c =>
    if acc.cols.contains c then
      periods.foldl (fun acc2 p =>
        if acc2.rows.length ≥ p then
          acc2.setCol (c ++ "_MA" ++ toString p) (rollingMean p (acc2.getCol c))
        else acc2) acc
    else acc) r1

/-! ### Object identity / mutation model

The frame-effect claims are about Python object mutation, so the three
entry points are also given at a store level: a store is a list of frame
objects, a Python variable holding a DataFrame is an index into it.
`df.copy()` / `df.sort_values(...)` allocate a fresh object at the end of
the store; in-place column assignment writes through the ref.  Each
function below mirrors where the source copies and where it writes. -/

def emptyFrame : Frame := ⟨[], []⟩

def readS (s : List Frame) (r : Nat) : Frame := s.getD r emptyFrame

def writeS (s : List Frame) (r : Nat) (v : Frame) : List Frame := s.set r v

/-- `calculate_financial_ratios` (lines 9–35): `df = data.copy()` allocates,
then each of the five ratio functions mutates that copy in place
(`df[...] = ...` inside them), and the copy's ref is returned. -/
def calculate_financial_ratiosS (s : List Frame) (r : Nat) :
    List Frame × Nat :=
  let r1 := s.length
  let s1 := s ++ [readS s r]
  let s2 := [calculate_profitability_ratios, calculate_liquidity_ratios,
      calculate_efficiency_ratios, calculate_leverage_ratios,
      calculate_valuation_ratios].foldl
    (fun st f => writeS st r1 (f (readS st r1))) s1
  (s2, r1)

/-- `calculate_trend_analysis` (lines 189–251): the early guard returns
without touching anything; otherwise `df.sort_values('Year')` allocates a
copy and all `df[...] = ...` writes hit that copy. -/
def calculate_trend_analysisS (s : List Frame) (r : Nat)
    (metrics : List String) (k : Nat) :
    List Frame × List (String × TrendEntry) :=
  let df0 := readS s r
  if !(df0.cols.contains "Year") || df0.rows.isEmpty then (s, [])
  else
    (s ++ [(calculate_trend_analysis df0 metrics k).1],
      (calculate_trend_analysis df0 metrics k).2)

/-- `add_moving_averages` (lines 254–280): `result_df = df.copy()` (and a
further fresh object from `sort_values`); all writes hit the fresh
object, whose ref is returned. -/
def add_moving_averagesS (s : List Frame) (r : Nat)
    (columns : List String) (periods : List Nat) : List Frame × Nat :=
  (s ++ [add_moving_averages (readS s r) columns periods], s.length)

/-! ## Raw data model — `api_handler.py`

Cells as they sit in the raw reply table built by `parse_to_table`:
a JSON null / pandas NaN, a number, or a string. -/

inductive CellVal where
  | null
  | numv (q : ℚ)
  | strv (s : List Char)
deriving DecidableEq, Repr

/-- One reply row of the upstream API (`GDSSDKResponse` entry): identifier,
mnemonic, the `periodtype` property, declared column headers, and nested
value rows. -/
structure RawReply where
  identifier : String
  mnemonic : String
  period : List Char
  headers : List String
  rows : List (List CellVal)
deriving DecidableEq, Repr

/-- One flattened record: the reply's metadata plus the header/cell pairs
of one nested value row (`record.update(dict(zip(headers, entry["Row"])))`). -/
structure FlatRec where
  identifier : String
  mnemonic : String
  period : List Char
  fields : List (String × CellVal)
deriving DecidableEq, Repr

/-- `parse_to_table` (lines 196–216): one flat record per nested value
row; replies with no rows contribute nothing. -/
def parse_to_table (rs : List RawReply) : List FlatRec :=
  rs.flatMap (fun r =>
    r.rows.map (fun row =>
      { identifier := r.identifier, mnemonic := r.mnemonic,
        period := r.period, fields := r.headers.zip row }))

/-- Last-binding-wins lookup, matching Python `dict(zip(...))` semantics
when a header repeats. -/
def lookupLast (l : List (String × CellVal)) (k : String) : Option CellVal :=
  (l.reverse.find? (fun p => p.1 = k)).map (·.2)

/-- Reading a cell of a flat record through the DataFrame: zipped fields
shadow the metadata keys (Python `dict.update`); any column of the frame
absent from this record reads as NaN. -/
def rowGet (row : FlatRec) (c : String) : CellVal :=
  match lookupLast row.fields c with
  | some v => v
  | none =>
    if c = "Identifier" then CellVal.strv row.identifier.data
    else if c = "Mnemonic" then CellVal.strv row.mnemonic.data
    else if c = "Period" then CellVal.strv row.period
    else CellVal.null

/-- The column set of `pd.DataFrame.from_records`: the metadata keys (first
inserted into every record dict) followed by the remaining field names in
first-appearance order. -/
def globalCols (recs : List FlatRec) : List String :=
  recs.foldl (fun acc r =>
    r.fields.foldl (fun a p => if a.contains p.1 then a else a ++ [p.1]) acc)
    ["Identifier", "Mnemonic", "Period"]

def metaCols : List String := ["Mnemonic", "Identifier", "Period"]

/-- The seven core financial mnemonics singled out at line 378. -/
def fin7 : List String :=
  ["IQ_TOTAL_REV", "IQ_NI", "IQ_EBITDA", "IQ_EBIT",
   "IQ_TOTAL_ASSETS", "IQ_TOTAL_LIAB", "IQ_CASH_EQUIV"]

/-- The `metrics` dict of lines 276–287, in insertion order. -/
def metricsList : List (String × String) :=
  [("IQ_TOTAL_REV", "Revenue"), ("IQ_NI", "Net Income"),
   ("IQ_EBITDA", "EBITDA"), ("IQ_EBIT", "EBIT"),
   ("IQ_TOTAL_ASSETS", "Total Assets"), ("IQ_TOTAL_LIAB", "Total Liabilities"),
   ("IQ_CASH_EQUIV", "Cash & Equivalents"), ("IQ_PE_RATIO", "P/E Ratio"),
   ("IQ_MARKETCAP", "Market Cap"), ("IQ_PRICE_CLOSE", "Stock Price")]

/-! ### Value Extractor -/

/-- Greedy digit run: accumulated value, digit count, rest. -/
def digitsTake (acc cnt : Nat) : List Char → Nat × Nat × List Char
  | [] => (acc, cnt, [])
  | c :: r =>
    if pyIsDigitCh c then digitsTake (acc * 10 + (c.toNat - '0'.toNat)) (cnt + 1) r
    else (acc, cnt, c :: r)

/-- Python `float(s)` on an already-stripped string, as an exact rational:
optional sign, decimal mantissa, optional exponent.  (The special tokens
`inf`/`nan` that CPython also accepts lie outside the rational model and
never occur in the data considered.) -/
def pyFloatQ (s : List Char) : Option ℚ :=
  let sgnRest : ℚ × List Char :=
    match s with
    | '+' :: r => (1, r)
    | '-' :: r => (-1, r)
    | r => (1, r)
  let (ip, nInt, s2) := digitsTake 0 0 sgnRest.2
  let fracRest : Nat × Nat × List Char :=
    match s2 with
    | '.' :: r => digitsTake 0 0 r
    | r => (0, 0, r)
  let (fp, nFrac, s3) := fracRest
  if nInt + nFrac = 0 then none
  else
    let mant : ℚ := sgnRest.1 * ((ip : ℚ) + (fp : ℚ) / ((10 : ℚ) ^ nFrac))
    match s3 with
    | [] => some mant
    | e :: r =>
      if e = 'e' ∨ e = 'E' then
        let esgnRest : Bool × List Char :=
          match r with
          | '+' :: rr => (false, rr)
          | '-' :: rr => (true, rr)
          | rr => (false, rr)
        let (ev, nExp, r2) := digitsTake 0 0 esgnRest.2
        if nExp = 0 ∨ r2 ≠ [] then none
        else some (if esgnRest.1 then mant / ((10 : ℚ) ^ ev)
                   else mant * ((10 : ℚ) ^ ev))
      else none

/-- `float(val.replace(',', '').strip())` with the try/except collapsed to
an `Option`. -/
def pyFloatClean (s : List Char) : Option ℚ := pyFloatQ (pyStrip (stripCommas s))

/-- Lines 374–402: identify the value column from the *first* row of the
metric's slice.  Only the seven core financial mnemonics are examined at
all; for them a global `Value` column wins outright, else the first
non-metadata column whose cell is an `int`/`float` (pandas NaN *is* a
float, so a NaN cell qualifies) or a comma-stripped numeric string. -/
def findValueCol (mn : String) (cols : List String) (firstRow : FlatRec) :
    Option String :=
  if fin7.contains mn then
    if cols.contains "Value" then some "Value"
    else cols.find? (fun c =>
      !metaCols.contains c &&
        (match rowGet firstRow c with
         | CellVal.numv _ => true
         | CellVal.null => true
         | CellVal.strv s => (pyFloatClean s).isSome))
  else none

/-- The case-insensitive unavailability sentinels of line 483. -/
def sentinels : List (List Char) :=
  ["n/a".data, "data unavailable".data, "na".data, []]

/-- Lines 469–532: extract the numeric payload of one row.  First the
identified value column (skipping NaN, date-like strings and sentinels),
then every other non-metadata column in frame order, skipping NaN, empty
strings, strings containing `/` or `-` and strings shorter than 2. -/
def extractRowValue (vc : String) (cols : List String) (row : FlatRec) :
    Option ℚ :=
  let primary : Option ℚ :=
    match rowGet row vc with
    | CellVal.null => none
    | CellVal.numv q => some q
    | CellVal.strv s =>
      if pyHasCh '/' s || pyHasCh '-' s || sentinels.contains (pyLower s) then
        none
      else pyFloatClean s
  match primary with
  | some q => some q
  | none =>
    (cols.filter (fun c => !metaCols.contains c && c ≠ vc)).findSome?
      (fun c =>
        match rowGet row c with
        | CellVal.null => none
        | CellVal.numv q => some q
        | CellVal.strv s =>
          if s.isEmpty then none
          else if pyHasCh '/' s || pyHasCh '-' s || decide (s.length < 2) then
            none
          else pyFloatClean s)

/-! ### Period Resolver, row level -/

/-- Lines 447–461: scan every column of the row (metadata included) for a
slash- or dash-delimited string holding a 4-digit part between 2000 and
2030.  The inner `break` leaves the per-column part loop only, so a later
matching column overwrites an earlier one. -/
def dateScan (cols : List String) (row : FlatRec) : Option Int :=
  cols.foldl (fun acc c =>
    match rowGet row c with
    | CellVal.strv v =>
      if pyHasCh '/' v || pyHasCh '-' v then
        let parts := pySplit '-' (v.map (fun ch => if ch = '/' then '-' else ch))
        match parts.findSome? (fun part =>
          if pyAllDigits part ∧ part.length = 4 ∧ 2000 ≤ digitsVal part ∧
              digitsVal part ≤ 2030 then some (digitsVal part : Int)
          else none) with
        | some y => some y
        | none => acc
      else acc
    | _ => acc) none

/-- Lines 410–466: resolve the row's year.  A non-string period raises
inside the `try` (caught, year stays unset).  A year equal to `0` is falsy
in Python, so it both re-enables the date scan and fails the final
`if not year` filter. -/
def resolveYearFromRow (cols : List String) (row : FlatRec) (cy : Int) :
    Option Int :=
  let y0 : Option Int :=
    match rowGet row "Period" with
    | CellVal.strv p => resolvePeriodToken p cy
    | _ => none
  let y1 : Option Int :=
    match y0 with
    | some y => if y = 0 then dateScan cols row else some y
    | none => dateScan cols row
  match y1 with
  | some y => if y = 0 then none else some y
  | none => none

/-! ### Canonical Assembler -/

/-- A canonical per-year record: identity fields plus the friendly-named
metric mapping (a Python dict: insertion-ordered, last write wins). -/
structure YearRec where
  year : Int
  date : List Char
  ticker : String
  company : List Char
  metrics : List (String × ℚ)
deriving DecidableEq, Repr

/-- Python dict assignment `d[k] = v`. -/
def dictSet (d : List (String × ℚ)) (k : String) (v : ℚ) :
    List (String × ℚ) :=
  if (d.map (·.1)).contains k then
    d.map (fun p => if p.1 = k then (k, v) else p)
  else d ++ [(k, v)]

/-- `list(range(current_year - years + 1, current_year + 1))` (line 292). -/
def windowList (cy : Int) (years : Nat) : List Int :=
  (List.range years).map (fun (i : Nat) => cy - years + 1 + (i : Int))

/-- The hardcoded per-company fallback of lines 296–336 (`apple_historical`),
value for value. -/
def appleHist : List (Int × List (String × ℚ)) :=
  [(2021, [("Revenue", (365817 : ℚ) / 1000000), ("Net Income", (94680 : ℚ) / 1000000),
           ("EBITDA", (120233 : ℚ) / 1000000), ("EBIT", (108949 : ℚ) / 1000000),
           ("Total Assets", (351002 : ℚ) / 1000000),
           ("Total Liabilities", (287912 : ℚ) / 1000000),
           ("Cash & Equivalents", (34940 : ℚ) / 1000000)]),
   (2022, [("Revenue", (394328 : ℚ) / 1000000), ("Net Income", (99803 : ℚ) / 1000000),
           ("EBITDA", (130541 : ℚ) / 1000000), ("EBIT", (119437 : ℚ) / 1000000),
           ("Total Assets", (352755 : ℚ) / 1000000),
           ("Total Liabilities", (302083 : ℚ) / 1000000),
           ("Cash & Equivalents", (23646 : ℚ) / 1000000)]),
   (2023, [("Revenue", (383285 : ℚ) / 1000000), ("Net Income", (96995 : ℚ) / 1000000),
           ("EBITDA", (125937 : ℚ) / 1000000), ("EBIT", (114300 : ℚ) / 1000000),
           ("Total Assets", (355610 : ℚ) / 1000000),
           ("Total Liabilities", (290437 : ℚ) / 1000000),
           ("Cash & Equivalents", (29965 : ℚ) / 1000000)]),
   (2024, [("Revenue", (3857 : ℚ) / 10), ("Net Income", (973 : ℚ) / 10),
           ("EBITDA", (1265 : ℚ) / 10), ("EBIT", (1151 : ℚ) / 10),
           ("Total Assets", (3582 : ℚ) / 10),
           ("Total Liabilities", (2918 : ℚ) / 10),
           ("Cash & Equivalents", (302 : ℚ) / 10)])]

/-- Lines 260–268: take the first nonempty string in a non-metadata column
of the first `IQ_COMPANY_NAME` row, defaulting to the upper-cased ticker. -/
def companyNameOf (recs : List FlatRec) (ticker : String) : List Char :=
  match recs.filter (fun r => r.mnemonic = "IQ_COMPANY_NAME") with
  | [] => (pyUpperStr ticker).data
  | first :: _ =>
    match (globalCols recs).findSome? (fun c =>
      match rowGet first c with
      | CellVal.strv s =>
        if !s.isEmpty && !metaCols.contains c then some s else none
      | _ => none) with
    | some s => s
    | none => (pyUpperStr ticker).data

/-- Lines 338–351: initialize one record per window year with the identity
fields, pre-populating the hardcoded Apple data when the ticker is AAPL. -/
def initData (ticker : String) (window : List Int) (company : List Char) :
    List (Int × YearRec) :=
  window.map (fun y =>
    let base : YearRec :=
      { year := y, date := pyStrInt y ++ "-12-31".data,
        ticker := pyUpperStr ticker, company := company, metrics := [] }
    if pyUpperStr ticker = "AAPL" then
      match (appleHist.find? (fun p => p.1 = y)).map (·.2) with
      | some ms =>
        (y, { base with metrics := ms.foldl (fun d p => dictSet d p.1 p.2) [] })
      | none => (y, base)
    else (y, base))

/-- Lines 354–559 flattened into the ordered list of
`financial_data[year][friendly_name] = value` assignments the metric loop
performs: metrics in dict order, rows in table order, each row passing the
year filter, the value extraction and the unit normalization. -/
def extractWrites (cy : Int) (window : List Int) (recs : List FlatRec) :
    List (Int × String × ℚ) :=
  let cols := globalCols recs
  metricsList.foldl (fun acc mf =>
    match recs.filter (fun r => r.mnemonic = mf.1) with
    | [] => acc
    | first :: rest =>
      match findValueCol mf.1 cols first with
      | none => acc
      | some vc =>
        acc ++ (first :: rest).filterMap (fun row =>
          match resolveYearFromRow cols row cy with
          | none => none
          | some y =>
            if window.contains y then
              match extractRowValue vc cols row with
              | none => none
              | some v => some (y, mf.2, normalize_value mf.1 v)
            else none)) []

/-- Replay the assignments onto the per-year records. -/
def applyWrites (d : List (Int × YearRec)) (ws : List (Int × String × ℚ)) :
    List (Int × YearRec) :=
  ws.foldl (fun acc w =>
    acc.map (fun p =>
      if p.1 = w.1 then (p.1, { p.2 with metrics := dictSet p.2.metrics w.2.1 w.2.2 })
      else p)) d

/-- Lines 563–575: rows in ascending key order. -/
def assembleRows (ticker : String) (years : Nat) (cy : Int)
    (recs : List FlatRec) : List YearRec :=
  let window := windowList cy years
  let d := applyWrites (initData ticker window (companyNameOf recs ticker))
    (extractWrites cy window recs)
  (insSort (fun p q => decide (p.1 ≤ q.1)) d).map (·.2)

/-! ### The fetch entry points and their failure behavior -/

/-- The environment/transport outcome a run can encounter before any data
processing: `_need` raising on a missing credential, the HTTP layer
raising (`raise_for_status` / timeout), or a reply list. -/
inductive FetchInput where
  | configMissing
  | transportError
  | ok (replies : List RawReply)
deriving DecidableEq, Repr

/-- `fetch_company_by_ticker` (lines 217–581).  The entire body sits in a
`try` whose handler returns `pd.DataFrame()` (line 581), so configuration
and transport errors produce the same empty frame as the explicit
empty-result returns of lines 242 and 249. -/
def fetch_company_by_ticker (ticker : String) (years : Nat) (cy : Int)
    (inp : FetchInput) : List YearRec :=
  match inp with
  | FetchInput.configMissing => []
  | FetchInput.transportError => []
  | FetchInput.ok rs =>
    if rs.isEmpty then []
    else
      let recs := parse_to_table rs
      if recs.isEmpty then []
      else assembleRows ticker years cy recs

/-- `fetch_data_from_api` (lines 590–612): returns the parsed table, with
every exception collapsed to an empty frame (line 612). -/
def fetch_data_from_api (inp : FetchInput) : List FlatRec :=
  match inp with
  | FetchInput.configMissing => []
  | FetchInput.transportError => []
  | FetchInput.ok rs => parse_to_table rs

/-! ## Spec-side definitions and concrete inputs used by the theorems -/

/-- The year-over-year growth observations of §4.8 / §8 of the spec:
`(value[t] / value[t-1] - 1) × 100` along a fully populated series. -/
def yoyListSpec (xs : List ℚ) : List ℚ :=
  List.zipWith (fun p c => (c / p - 1) * 100) xs xs.tail

def meanQ (l : List ℚ) : ℚ := l.sum / l.length

def qTakeLast (k : Nat) (l : List ℚ) : List ℚ := l.drop (l.length - k)

/-- The spec's "recent trend": mean of the last `min(k, n)` year-over-year
growth values. -/
def specRecentTrend (k : Nat) (xs : List ℚ) : ℚ :=
  meanQ (qTakeLast (min k (yoyListSpec xs).length) (yoyListSpec xs))

/-- A single-metric time-series frame with consecutive years, as the trend
engine receives it. -/
def trendFrame (y0 : ℚ) (xs : List ℚ) : Frame :=
  { cols := ["Year", "M"],
    rows := xs.enum.map (fun p => [ACell.num (y0 + p.1), ACell.num p.2]) }

/-- A reply carrying only a company-name row: the upstream returned no
numeric data whatsoever. -/
def c1reply : RawReply :=
  { identifier := "AAPL", mnemonic := "IQ_COMPANY_NAME", period := [],
    headers := ["CompName"], rows := [[CellVal.strv "Apple Inc.".data]] }

def c1rec : FlatRec :=
  { identifier := "AAPL", mnemonic := "IQ_COMPANY_NAME", period := [],
    fields := [("CompName", CellVal.strv "Apple Inc.".data)] }

/-- A market-data record holding its value in a conventional `Value`
column. -/
def c4rec : FlatRec :=
  { identifier := "MSFT", mnemonic := "IQ_PE_RATIO", period := "IQ_FY".data,
    fields := [("Value", CellVal.numv (51 / 2))] }

/-- A financial record whose `Value` cell is an unparseable string and
whose numeric payload sits in a later column. -/
def c4cols : List String :=
  ["Identifier", "Mnemonic", "Period", "Value", "Rubbish", "Num"]

def c4fallbackRow (q : ℚ) : FlatRec :=
  { identifier := "MSFT", mnemonic := "IQ_TOTAL_REV", period := "FY2025".data,
    fields := [("Value", CellVal.strv "pending".data),
               ("Rubbish", CellVal.strv "x".data),
               ("Num", CellVal.numv q)] }

def c4finRec : FlatRec :=
  { identifier := "MSFT", mnemonic := "IQ_TOTAL_REV", period := "FY2025".data,
    fields := [("Value", CellVal.numv 123456)] }

/-- A record whose `Value` cell is a comma-grouped numeric string. -/
def c4strRow : FlatRec :=
  { identifier := "MSFT", mnemonic := "IQ_TOTAL_REV", period := "FY2025".data,
    fields := [("Value", CellVal.strv "1,234".data)] }

/-- A revenue record resolving to the current year, used to witness the
window property alongside an empty year. -/
def c8rec : FlatRec :=
  { identifier := "MSFT", mnemonic := "IQ_TOTAL_REV", period := "FY2025".data,
    fields := [("Value", CellVal.numv 123456)] }

/-- A metadata-only AAPL record: nothing extractable. -/
def c8aaplRec : FlatRec :=
  { identifier := "AAPL", mnemonic := "IQ_ULT_PARENT", period := [],
    fields := [] }

/-- The empty 2024 row produced by `assembleRows "MSFT" 2 2025 [c8rec]`. -/
def c8row : YearRec :=
  { year := 2024, date := "2024-12-31".data, ticker := "MSFT",
    company := "MSFT".data, metrics := [] }

/-- A populated frame object to exercise the mutation model on. -/
def c10frame : Frame :=
  { cols := ["Year", "IQ_EBITDA_A", "IQ_TOTAL_REV_A"],
    rows := [[ACell.num 2024, ACell.num 5, ACell.num 10],
             [ACell.num 2025, ACell.num 6, ACell.num 12]] }

/-- Two observations, one growth value: fewer rows than the default trend
window of 3. -/
def c9frame : Frame :=
  { cols := ["Year", "M"],
    rows := [[ACell.num 2024, ACell.num 100], [ACell.num 2025, ACell.num 200]] }

/-! ## Claim theorems -/

/-! ### Shared helper lemmas -/

lemma pySplitGo_no_sep (sep : Char) :
    ∀ (s acc : List Char), sep ∉ s → pySplitGo sep acc s = [acc.reverse ++ s] := by
  intro s
  induction s with
  | nil => intro acc _; simp [pySplitGo]
  | cons c r ih =>
    intro acc h
    have hc : ¬(c = sep) := fun he => h (he ▸ List.mem_cons_self c r)
    have hr : sep ∉ r := fun hm => h (List.mem_cons_of_mem c hm)
    simp [pySplitGo, hc, ih (c :: acc) hr]

lemma pySplitGo_mid (sep : Char) :
    ∀ (pre acc ds : List Char), sep ∉ pre → sep ∉ ds →
      pySplitGo sep acc (pre ++ sep :: ds) = [acc.reverse ++ pre, ds] := by
  intro pre
  induction pre with
  | nil =>
    intro acc ds _ hds
    simp [pySplitGo, pySplitGo_no_sep sep ds [] hds]
  | cons c r ih =>
    intro acc ds hpre hds
    have hc : ¬(c = sep) := fun he => hpre (he ▸ List.mem_cons_self c r)
    have hr : sep ∉ r := fun hm => hpre (List.mem_cons_of_mem c hm)
    simp [pySplitGo, hc, ih (c :: acc) ds hr hds]

/-- Python `split` on a string made of a separator-free prefix, one
separator and a separator-free suffix. -/
lemma pySplit_pre_sep (sep : Char) (pre ds : List Char)
    (hpre : sep ∉ pre) (hds : sep ∉ ds) :
    pySplit sep (pre ++ sep :: ds) = [pre, ds] := by
  simpa [pySplit] using pySplitGo_mid sep pre [] ds hpre hds

/-- A digit string contains no non-digit character. -/
lemma allDigits_not_mem {ds : List Char} (h : pyAllDigits ds = true)
    {sep : Char} (hsep : pyIsDigitCh sep = false) : sep ∉ ds := by
  intro hm
  simp [pyAllDigits] at h
  have := h.2 sep hm
  rw [hsep] at this
  exact Bool.noConfusion this

lemma findP_cons_neg {α : Type} (p : α → Bool) (a : α) (l : List α)
    (h : p a = false) : List.find? p (a :: l) = List.find? p l := by
  simp [List.find?, h]

lemma findP_cons_pos {α : Type} (p : α → Bool) (a : α) (l : List α)
    (h : p a = true) : List.find? p (a :: l) = some a := by
  simp [List.find?, h]

/-- Appending a fresh object to the store does not change what an
existing ref sees. -/
lemma readS_append (s : List Frame) (v : Frame) (r : Nat) (h : r < s.length) :
    readS (s ++ [v]) r = readS s r := by
  simp [readS, List.getD_eq_getElem?_getD, List.getElem?_append_left h]

/-- Writing through one ref does not change what a different ref sees. -/
lemma readS_set_ne (s : List Frame) (j : Nat) (v : Frame) (r : Nat)
    (h : r ≠ j) : readS (s.set j v) r = readS s r := by
  simp [readS, List.getD_eq_getElem?_getD, List.getElem?_set_ne (Ne.symm h)]

/-- Insertion sort leaves an already-sorted list unchanged. -/
lemma insSort_eq_self {α : Type} (le : α → α → Bool) :
    ∀ (l : List α), List.Chain' (fun a b => le a b = true) l → insSort le l = l := by
  intro l
  induction l with
  | nil => intro _; rfl
  | cons x xs ih =>
    intro h
    rw [insSort, ih h.tail]
    cases xs with
    | nil => rfl
    | cons y ys =>
      have hxy : le x y = true := (List.chain'_cons.mp h).1
      simp [insSorted, hxy]

/-- Replaying metric writes never changes the year keys. -/
lemma applyWrites_map_fst (ws : List (Int × String × ℚ)) :
    ∀ d, (applyWrites d ws).map Prod.fst = d.map Prod.fst := by
  induction ws with
  | nil => intro d; rfl
  | cons w ws ih =>
    intro d
    show (applyWrites (d.map _) ws).map Prod.fst = _
    rw [ih]
    rw [List.map_map]
    apply List.map_congr_left
    intro p _
    by_cases hp : p.1 = w.1 <;> simp [hp]

/-- Replaying metric writes preserves the key = `Year`-field invariant. -/
lemma applyWrites_year (ws : List (Int × String × ℚ)) :
    ∀ d, (∀ p ∈ d, (p.2).year = p.1) →
      ∀ p ∈ applyWrites d ws, (p.2).year = p.1 := by
  induction ws with
  | nil => intro d hd; exact hd
  | cons w ws ih =>
    intro d hd
    apply ih
    intro p hp
    rcases List.mem_map.mp hp with ⟨q, hq, rfl⟩
    by_cases hqw : q.1 = w.1 <;> simp [hqw, hd q hq]

/-- An entry whose year receives no write comes through untouched. -/
lemma applyWrites_no_write (y : Int) :
    ∀ (ws : List (Int × String × ℚ)) d (p : Int × YearRec),
      (∀ w ∈ ws, w.1 ≠ y) → p ∈ applyWrites d ws → p.1 = y → p ∈ d := by
  intro ws
  induction ws with
  | nil => intro d p _ hp _; exact hp
  | cons w ws ih =>
    intro d p hw hp hy
    have hp2 := ih (d.map _) p (fun w2 h2 => hw w2 (List.mem_cons_of_mem w h2)) hp hy
    rcases List.mem_map.mp hp2 with ⟨q, hq, heq⟩
    by_cases hqw : q.1 = w.1
    · rw [if_pos hqw] at heq
      exfalso
      apply hw w (List.mem_cons_self w ws)
      rw [← hy, ← heq]
      exact hqw.symm
    · rw [if_neg hqw] at heq
      rw [← heq]
      exact hq

lemma initData_map_fst (t : String) (w : List Int) (c : List Char) :
    (initData t w c).map Prod.fst = w := by
  rw [initData, List.map_map]
  conv_rhs => rw [← List.map_id w]
  apply List.map_congr_left
  intro y _
  by_cases h : pyUpperStr t = "AAPL"
  · simp only [h, if_pos, Function.comp_apply, id]
    split <;> rfl
  · simp [h]

/-- Every initialized entry keys its record by its year, and for tickers
other than AAPL starts with no metric fields. -/
lemma initData_mem (t : String) (w : List Int) (c : List Char) :
    ∀ p ∈ initData t w c,
      (p.2).year = p.1 ∧ (pyUpperStr t ≠ "AAPL" → (p.2).metrics = []) := by
  intro p hp
  rcases List.mem_map.mp hp with ⟨y, hy, rfl⟩
  by_cases h : pyUpperStr t = "AAPL"
  · simp only [h, if_pos]
    split <;> simp [h]
  · simp [h]

/-- The requested year window is ascending. -/
lemma windowList_chain (cy : Int) (years : Nat) :
    List.Chain' (fun a b : Int => a ≤ b) (windowList cy years) := by
  rw [windowList]
  rw [List.chain'_map]
  rw [List.chain'_iff_get]
  intro i hi
  simp

lemma setCol_rows_length (f : Frame) (c : String) (v : List ACell) :
    (f.setCol c v).rows.length = min f.rows.length v.length := by
  unfold Frame.setCol
  cases f.cols.indexOf? c <;> simp

lemma pctChange_length (l : List ACell) : (pctChange l).length = l.length := by
  cases l with
  | nil => rfl
  | cons x xs => simp [pctChange]

lemma rollingMean_length (k : Nat) (l : List ACell) :
    (rollingMean k l).length = l.length := by
  simp [rollingMean]

/-- The metric column of a single-metric time-series frame. -/
lemma getColM (y0 : ℚ) (xs : List ℚ) :
    (trendFrame y0 xs).getCol "M" = xs.map ACell.num := by
  unfold Frame.getCol trendFrame
  rw [show (["Year", "M"] : List String).indexOf? "M" = some 1 from rfl]
  simp only [List.map_map]
  rw [show ((fun r => r.getD 1 ACell.na) ∘ fun p : Nat × ℚ =>
      [ACell.num (y0 + p.1), ACell.num p.2]) = (fun p : Nat × ℚ => ACell.num p.2)
    from rfl]
  rw [show (fun p : Nat × ℚ => ACell.num p.2) = ACell.num ∘ Prod.snd from rfl]
  rw [← List.map_map, List.enum_map_snd]

lemma trendFrame_rows_length (y0 : ℚ) (xs : List ℚ) :
    (trendFrame y0 xs).rows.length = xs.length := by
  simp [trendFrame]

lemma yoyListSpec_length (xs : List ℚ) :
    (yoyListSpec xs).length = xs.length - 1 := by
  simp [yoyListSpec]

/-- The vectorized `(x[t]/x[t-1] - 1) * 100` over nonzero predecessors is
exact rational growth. -/
lemma zip_growth (xs : List ℚ) (hx : ∀ x ∈ xs, x ≠ 0) :
    ∀ bs : List ℚ,
      (List.zipWith (fun p c => (c.div p).sub (ACell.num 1))
        (xs.map ACell.num) (bs.map ACell.num)).map
          (fun c => c.mul (ACell.num 100))
      = (List.zipWith (fun p c => (c / p - 1) * 100) xs bs).map ACell.num := by
  induction xs with
  | nil => intro bs; simp
  | cons a as ih =>
    intro bs
    cases bs with
    | nil => simp
    | cons b bs2 =>
      have ha : a ≠ 0 := hx a (List.mem_cons_self a as)
      have ih2 := ih (fun x hxm => hx x (List.mem_cons_of_mem a hxm)) bs2
      simp only [List.map_cons, List.zipWith_cons_cons]
      rw [ih2]
      congr 1
      simp [ACell.div, ACell.sub, ACell.mul, ha]

/-- `pct_change() * 100` on a fully populated, nonzero column is `NaN`
followed by the spec's year-over-year growth list. -/
lemma pct_yoy (x : ℚ) (rest : List ℚ)
    (hx : ∀ v ∈ x :: rest, v ≠ 0) :
    (pctChange ((x :: rest).map ACell.num)).map (fun c => c.mul (ACell.num 100))
      = ACell.na :: (yoyListSpec (x :: rest)).map ACell.num := by
  simp only [List.map_cons, pctChange]
  rw [show (ACell.na.mul (ACell.num 100)) = ACell.na from rfl]
  rw [show (ACell.num x :: rest.map ACell.num) = (x :: rest).map ACell.num from rfl]
  rw [zip_growth (x :: rest) hx rest]
  rfl

lemma filterMap_num_num (l : List ℚ) :
    List.filterMap (ACell.num? ∘ ACell.num) l = l := by
  induction l with
  | nil => rfl
  | cons a as ih => simp [List.filterMap_cons, ACell.num?, ih]

lemma not_all_not_mem (l : List ℚ) (h : l ≠ []) : ¬∀ a : ℚ, a ∉ l := by
  intro hall
  cases l with
  | nil => exact h rfl
  | cons a as => exact hall a (List.mem_cons_self a as)

/-- `Series.mean` of an all-numeric column is the exact rational mean. -/
lemma meanCell_map_num (l : List ℚ) (h : l ≠ []) :
    meanCell (l.map ACell.num) = ACell.num (meanQ l) := by
  unfold meanCell
  simp only [List.elem_eq_mem, List.filterMap_map, filterMap_num_num]
  simp [not_all_not_mem l h, meanQ, h]

/-- `Series.mean` skips a leading `NaN`. -/
lemma meanCell_na_cons (l : List ℚ) (h : l ≠ []) :
    meanCell (ACell.na :: l.map ACell.num) = ACell.num (meanQ l) := by
  unfold meanCell
  simp only [List.elem_eq_mem, List.filterMap_cons, List.filterMap_map,
    filterMap_num_num]
  simp [ACell.num?, not_all_not_mem l h, meanQ, h]

/-- `iloc[-k:].mean()` over the `NaN`-headed growth column equals the
mean of the last `min(k, n)` growth values. -/
lemma takeLast_meanCell (k : Nat) (g : List ℚ) (hg : g ≠ []) (hk1 : 1 ≤ k)
    (hk2 : k ≤ g.length + 1) :
    meanCell (takeLast k (ACell.na :: g.map ACell.num))
      = ACell.num (meanQ (qTakeLast (min k g.length) g)) := by
  by_cases hcase : k ≤ g.length
  · unfold takeLast
    rw [show (ACell.na :: g.map ACell.num).length = g.length + 1 by simp]
    rw [show g.length + 1 - k = (g.length - k) + 1 by omega]
    rw [show List.drop ((g.length - k) + 1) (ACell.na :: g.map ACell.num)
        = List.drop (g.length - k) (g.map ACell.num) from rfl]
    rw [← List.map_drop]
    rw [meanCell_map_num _ ?_]
    · unfold qTakeLast
      rw [min_eq_left hcase]
    · have : (g.drop (g.length - k)).length = k := by
        rw [List.length_drop]
        omega
      intro he
      rw [he] at this
      simp at this
      omega
  · have hke : k = g.length + 1 := by omega
    unfold takeLast
    rw [hke]
    rw [show (ACell.na :: g.map ACell.num).length = g.length + 1 by simp]
    rw [Nat.sub_self, List.drop_zero]
    rw [meanCell_na_cons _ hg]
    unfold qTakeLast
    rw [min_eq_right (by omega)]
    rw [Nat.sub_self, List.drop_zero]

lemma enum_fst_chain (xs : List ℚ) :
    List.Chain' (fun p q : ℕ × ℚ => p.1 ≤ q.1) xs.enum := by
  have h0 : List.Chain' (fun a b : ℕ => a ≤ b) (xs.enum.map Prod.fst) := by
    rw [List.enum_map_fst]
    rw [List.chain'_iff_get]
    intro i hi
    simp
  exact (List.chain'_map Prod.fst).mp h0

/-- A consecutive-year frame is already sorted: `sort_values('Year')`
returns it unchanged. -/
lemma sortByYear_trendFrame (y0 : ℚ) (xs : List ℚ) :
    sortByYear (trendFrame y0 xs) = trendFrame y0 xs := by
  unfold sortByYear
  rw [show (trendFrame y0 xs).cols.indexOf? "Year" = some 0 from rfl]
  have hch : List.Chain' (fun r1 r2 : List ACell =>
      (yearLe (r1.getD 0 ACell.na) (r2.getD 0 ACell.na)) = true)
      (trendFrame y0 xs).rows := by
    apply (List.chain'_map _).mpr
    apply (enum_fst_chain xs).imp
    intro p q hpq
    show yearLe (ACell.num (y0 + p.1)) (ACell.num (y0 + q.1)) = true
    simp only [yearLe, decide_eq_true_eq]
    have : (p.1 : ℚ) ≤ (q.1 : ℚ) := by exact_mod_cast hpq
    linarith
  dsimp only
  rw [insSort_eq_self _ _ hch]

/-- **C1** (code bug).  The claim says the Canonical Assembler never
fabricates metric values and writes no hardcoded per-company fallback.
The code violates this: on a run for ticker `AAPL` in which the upstream
API returned a single company-name row and *zero* extractable metric
values (the extraction pass produces no assignment at all), the output
row for 2021 nevertheless carries the hardcoded `Revenue` value
`365817 / 1000000` from the `apple_historical` table of lines 296–336. -/
theorem c1_hardcoded_fallback_written :
    extractWrites 2025 (windowList 2025 5) (parse_to_table [c1reply]) = [] ∧
    ((fetch_company_by_ticker "AAPL" 5 2025 (FetchInput.ok [c1reply])).find?
        (fun r => r.year = 2021)).map (fun r => r.metrics.lookup "Revenue")
      = some (some ((365817 : ℚ) / 1000000)) := by
  constructor
  · rfl
  · rfl

/-- **C3** (code bug).  The claim says a configuration or transport
failure is surfaced and distinguishable from an empty dataset.  In the
code both `fetch_company_by_ticker` and `fetch_data_from_api` catch every
exception and return `pd.DataFrame()` — byte-for-byte the same value they
return for a run that merely produced no rows. -/
theorem c3_failure_indistinguishable_from_empty :
    fetch_company_by_ticker "MSFT" 5 2025 FetchInput.configMissing
      = fetch_company_by_ticker "MSFT" 5 2025 (FetchInput.ok []) ∧
    fetch_company_by_ticker "MSFT" 5 2025 FetchInput.transportError
      = fetch_company_by_ticker "MSFT" 5 2025 (FetchInput.ok []) ∧
    fetch_data_from_api FetchInput.configMissing
      = fetch_data_from_api (FetchInput.ok []) ∧
    fetch_company_by_ticker "MSFT" 5 2025 FetchInput.configMissing = [] := by
  exact ⟨rfl, rfl, rfl, rfl⟩

/-- **C2**, counterexample.  The claim says every matched
numerator/denominator pair stores a missing value on a zero denominator
and never produces an infinity.  The profitability pass computes
`df[ebitda] / df[rev] * 100` unguarded: with EBITDA 5 and Revenue 0 the
stored EBITDA margin is `+inf`, not a missing value. -/
theorem c2_counterexample :
    (calculate_financial_ratios
        ⟨["IQ_EBITDA_A", "IQ_TOTAL_REV_A"], [[ACell.num 5, ACell.num 0]]⟩).getCol
      "EBITDA_MARGIN_A" = [ACell.pinf] ∧ ACell.pinf ≠ ACell.na := by
  exact ⟨rfl, by decide⟩

/-- **C4**, counterexample.  The claim says the Value Extractor treats
financial, market-data and estimate mnemonics alike.  In the code the
value-column search (lines 378–402) runs only for the seven financial
mnemonics: an `IQ_PE_RATIO` record with a conventional `Value` column
holding 25.5 yields no value column and the metric is skipped outright —
the assembled current-year row stays empty. -/
theorem c4_counterexample :
    findValueCol "IQ_PE_RATIO" (globalCols [c4rec]) c4rec = none ∧
    (assembleRows "MSFT" 1 2025 [c4rec]).map (fun r => r.metrics) = [[]] := by
  exact ⟨rfl, rfl⟩

/-- **C5**, counterexample.  The claim says a market-cap value below 100
is up-scaled by one million.  The trillions branch (`value < 100`) is
nested inside the `value > 1000` guard, so it can never fire: 50 passes
through unchanged. -/
theorem c5_counterexample :
    normalize_value "IQ_MARKETCAP" 50 = 50 ∧
    normalize_value "IQ_MARKETCAP" 50 ≠ 50 * 1000000 := by
  constructor
  · rfl
  · intro h
    rw [show normalize_value "IQ_MARKETCAP" 50 = 50 from rfl] at h
    norm_num at h

/-- **C6** (confirmed).  The three period-decoding rules of lines
414–431, for every anchor year and every numeric offset/year string:
an absolute `FY<digits>` token resolves to exactly that year, a relative
`IQ_FY-<digits>` token to `anchor - offset`, and a relative
`IQ_FY+<digits>` token to `anchor + offset`.  The absolute rule sits
first in the `elif` chain (its guard is tested before the relative
guards in `resolvePeriodToken`), and no token can satisfy both, since an
all-digit suffix contains no separator. -/
theorem c6_period_rules (cy : Int) (ds : List Char) (h : pyAllDigits ds = true) :
    resolvePeriodToken ('F' :: 'Y' :: ds) cy = some ((digitsVal ds : Int))
  ∧ resolvePeriodToken ("IQ_FY-".data ++ ds) cy = some (cy - (digitsVal ds : Int))
  ∧ resolvePeriodToken ("IQ_FY+".data ++ ds) cy = some (cy + (digitsVal ds : Int)) := by
  have hne : ds ≠ [] := by
    intro he
    rw [he] at h
    simp [pyAllDigits] at h
  have hd := h
  simp [pyAllDigits] at hd
  have hmm : ('-' : Char) ∉ ds := allDigits_not_mem h (by decide)
  have hpp : ('+' : Char) ∉ ds := allDigits_not_mem h (by decide)
  refine ⟨?_, ?_, ?_⟩
  · have hcond : absCond ('F' :: 'Y' :: ds) = true := by
      simp [absCond, List.isPrefixOf, pyAllDigits]
      exact ⟨List.length_pos.mpr hne, hne, hd.2⟩
    unfold resolvePeriodToken
    rw [if_pos hcond]
    rfl
  · show resolvePeriodToken (['I', 'Q', '_', 'F', 'Y'] ++ '-' :: ds) cy = _
    have habs : absCond (['I', 'Q', '_', 'F', 'Y'] ++ '-' :: ds) = false := rfl
    have hrel : relMinusCond (['I', 'Q', '_', 'F', 'Y'] ++ '-' :: ds) = true := rfl
    unfold resolvePeriodToken
    rw [habs, hrel]
    simp only [Bool.false_eq_true, if_false, if_true]
    unfold relMinusRes
    rw [pySplit_pre_sep '-' ['I', 'Q', '_', 'F', 'Y'] ds (by decide) hmm]
    simp [h]
  · show resolvePeriodToken (['I', 'Q', '_', 'F', 'Y'] ++ '+' :: ds) cy = _
    have habs : absCond (['I', 'Q', '_', 'F', 'Y'] ++ '+' :: ds) = false := rfl
    have hrelm : relMinusCond (['I', 'Q', '_', 'F', 'Y'] ++ '+' :: ds) = false := by
      simp [relMinusCond, pyHasCh]
      intro _ c hc he
      exact hmm (he ▸ hc)
    have hrelp : relPlusCond (['I', 'Q', '_', 'F', 'Y'] ++ '+' :: ds) = true := rfl
    unfold resolvePeriodToken
    rw [habs, hrelm, hrelp]
    simp only [Bool.false_eq_true, if_false, if_true]
    unfold relPlusRes
    rw [pySplit_pre_sep '+' ['I', 'Q', '_', 'F', 'Y'] ds (by decide) hpp]
    simp [h]

/-- **C6**, witness: the spec's own examples — `FY2022` resolves to 2022,
anchor 2024 with offset −2 resolves to 2022 and offset +1 to 2025. -/
theorem c6_period_rules_witness :
    resolvePeriodToken "FY2022".data 2024 = some 2022 ∧
    resolvePeriodToken "IQ_FY-2".data 2024 = some 2022 ∧
    resolvePeriodToken "IQ_FY+1".data 2024 = some 2025 := by
  have h2 := (c6_period_rules 2024 "2022".data (by decide)).1
  have hm := (c6_period_rules 2024 "2".data (by decide)).2.1
  have hp := (c6_period_rules 2024 "1".data (by decide)).2.2
  rw [show ('F' :: 'Y' :: "2022".data) = "FY2022".data from rfl] at h2
  rw [show ("IQ_FY-".data ++ "2".data) = "IQ_FY-2".data from rfl] at hm
  rw [show ("IQ_FY+".data ++ "1".data) = "IQ_FY+1".data from rfl] at hp
  exact ⟨h2.trans (by decide), hm.trans (by decide), hp.trans (by decide)⟩

/-- **C7**, counterexample.  The claim says a token containing the 4-digit
year `current_year + 2` resolves to that year.  The Python
`range(current_year - 10, current_year + 2)` excludes its upper bound, so
with anchor 2025 the token `"2027"` matches no rule and stays
unresolved. -/
theorem c7_counterexample :
    pyInSub (pyStrInt (2025 + 2)) "2027".data = true ∧
    resolvePeriodToken "2027".data 2025 = none := by
  exact ⟨by decide, by decide⟩

/-- **C7** (amended).  The fallback scan with its actual window: for a
token unmatched by the absolute, relative and sentinel rules, if the
token contains `str(current_year + 1)` and no smaller candidate of the
window `current_year - 10 … current_year + 1`, the resolver returns
`current_year + 1` — the scan's last candidate, the Python `range`'s
upper bound `current_year + 2` being exclusive. -/
theorem c7_fallback_window (cy : Int) (t : List Char)
    (h1 : absCond t = false) (h2 : relMinusCond t = false)
    (h3 : relPlusCond t = false) (h4 : sentinelCond t = false)
    (h5 : pyInSub (pyStrInt (cy + 1)) t = true)
    (h6 : ∀ c : Int, cy - 10 ≤ c → c ≤ cy → pyInSub (pyStrInt c) t = false) :
    resolvePeriodToken t cy = some (cy + 1) := by
  unfold resolvePeriodToken
  rw [if_neg (by simp [h1]), if_neg (by simp [h2]), if_neg (by simp [h3]),
    if_neg (by simp [h4])]
  unfold fallbackScan pyRangeInt
  rw [show (cy + 2 - (cy - 10)).toNat = 12 by omega]
  rw [show List.range 12 = [0, 1, 2, 3, 4, 5, 6, 7, 8, 9, 10, 11] from rfl]
  simp only [List.map_cons, List.map_nil]
  rw [findP_cons_neg (fun c => pyInSub (pyStrInt c) t) _ _ (h6 _ (by omega) (by omega)),
      findP_cons_neg (fun c => pyInSub (pyStrInt c) t) _ _ (h6 _ (by omega) (by omega)),
      findP_cons_neg (fun c => pyInSub (pyStrInt c) t) _ _ (h6 _ (by omega) (by omega)),
      findP_cons_neg (fun c => pyInSub (pyStrInt c) t) _ _ (h6 _ (by omega) (by omega)),
      findP_cons_neg (fun c => pyInSub (pyStrInt c) t) _ _ (h6 _ (by omega) (by omega)),
      findP_cons_neg (fun c => pyInSub (pyStrInt c) t) _ _ (h6 _ (by omega) (by omega)),
      findP_cons_neg (fun c => pyInSub (pyStrInt c) t) _ _ (h6 _ (by omega) (by omega)),
      findP_cons_neg (fun c => pyInSub (pyStrInt c) t) _ _ (h6 _ (by omega) (by omega)),
      findP_cons_neg (fun c => pyInSub (pyStrInt c) t) _ _ (h6 _ (by omega) (by omega)),
      findP_cons_neg (fun c => pyInSub (pyStrInt c) t) _ _ (h6 _ (by omega) (by omega)),
      findP_cons_neg (fun c => pyInSub (pyStrInt c) t) _ _ (h6 _ (by omega) (by omega))]
  rw [show cy - 10 + ((11 : Nat) : Int) = cy + 1 by omega]
  rw [findP_cons_pos (fun c => pyInSub (pyStrInt c) t) _ _ h5]

/-- **C7**, witness: with anchor 2025 the token `Q2026` — containing
`current_year + 1` and no smaller window year — resolves to 2026. -/
theorem c7_fallback_window_witness :
    resolvePeriodToken "Q2026".data 2025 = some 2026 := by
  have h6 : ∀ c : Int, 2025 - 10 ≤ c → c ≤ 2025 →
      pyInSub (pyStrInt c) "Q2026".data = false := by
    intro c hc1 hc2
    interval_cases c <;> decide
  have h := c7_fallback_window 2025 "Q2026".data (by decide) (by decide)
    (by decide) (by decide) (by decide) h6
  exact h.trans (by decide)

/-- **C8**, counterexample.  The claim says a year with zero extracted
data appears with only its identity fields populated.  For ticker `AAPL`
the assembler pre-populates 2021–2024 from the hardcoded table, so the
2021 row of a run that extracted nothing still carries metric fields. -/
theorem c8_counterexample :
    extractWrites 2025 (windowList 2025 5) [c8aaplRec] = [] ∧
    ((assembleRows "AAPL" 5 2025 [c8aaplRec]).find? (fun r => r.year = 2021)).map
      (fun r => r.metrics.isEmpty) = some false := by
  exact ⟨rfl, rfl⟩

/-- **C8** (amended).  The Canonical Assembler's window property, for
every ticker, window size and reply table that reaches it: the output
rows' years are exactly `[cy - years + 1, …, cy]`, in ascending order,
one row per year; and for tickers other than AAPL, a year receiving no
extracted write keeps an empty metric mapping (identity fields only).
For AAPL the hardcoded fallback breaks the second clause (see the
counterexample). -/
theorem c8_year_window (ticker : String) (years : Nat) (cy : Int)
    (recs : List FlatRec) :
    ((assembleRows ticker years cy recs).map (fun r => r.year)
      = windowList cy years)
  ∧ (pyUpperStr ticker ≠ "AAPL" →
      ∀ y : Int, (∀ w ∈ extractWrites cy (windowList cy years) recs, w.1 ≠ y) →
        ∀ r ∈ assembleRows ticker years cy recs, r.year = y →
          r.metrics = []) := by
  have hassemble : assembleRows ticker years cy recs
      = (insSort (fun p q : Int × YearRec => decide (p.1 ≤ q.1))
          (applyWrites
            (initData ticker (windowList cy years) (companyNameOf recs ticker))
            (extractWrites cy (windowList cy years) recs))).map Prod.snd := rfl
  have hkeys : (applyWrites
      (initData ticker (windowList cy years) (companyNameOf recs ticker))
      (extractWrites cy (windowList cy years) recs)).map Prod.fst
      = windowList cy years := by
    rw [applyWrites_map_fst, initData_map_fst]
  have hyear := applyWrites_year (extractWrites cy (windowList cy years) recs)
    (initData ticker (windowList cy years) (companyNameOf recs ticker))
    (fun p hp => (initData_mem _ _ _ p hp).1)
  have hchain0 : List.Chain' (fun a b : Int => a ≤ b)
      ((applyWrites
        (initData ticker (windowList cy years) (companyNameOf recs ticker))
        (extractWrites cy (windowList cy years) recs)).map Prod.fst) := by
    rw [hkeys]
    exact windowList_chain cy years
  have hchain1 := (List.chain'_map Prod.fst).mp hchain0
  have hchain2 := hchain1.imp
    (fun (a b : Int × YearRec) (hab : a.1 ≤ b.1) => decide_eq_true hab)
  have hsort := insSort_eq_self (fun p q : Int × YearRec => decide (p.1 ≤ q.1))
    _ hchain2
  constructor
  · rw [hassemble, hsort, List.map_map]
    conv_rhs => rw [← hkeys]
    apply List.map_congr_left
    intro p hp
    simp only [Function.comp_apply]
    exact hyear p hp
  · intro hA y hw r hr hry
    rw [hassemble, hsort] at hr
    rcases List.mem_map.mp hr with ⟨p, hp, rfl⟩
    have hfst : p.1 = y := by
      rw [← hyear p hp]
      exact hry
    have hin := applyWrites_no_write y _ _ p hw hp hfst
    exact (initData_mem _ _ _ p hin).2 hA

/-- **C8**, witness: two years requested for MSFT with data only for
2025 — the output years are exactly 2024 and 2025 and the empty 2024 row
carries no metric fields. -/
theorem c8_year_window_witness :
    ((assembleRows "MSFT" 2 2025 [c8rec]).map (fun r => r.year)
      = windowList 2025 2) ∧ c8row.metrics = [] := by
  have h := c8_year_window "MSFT" 2 2025 [c8rec]
  exact ⟨h.1, h.2 (by decide) 2024 (by decide) c8row (by decide) (by decide)⟩

/-- **C10** (confirmed).  None of the three derived-computation entry
points mutates the frame object its caller passed in:
`calculate_financial_ratios` copies before the ratio passes write,
`calculate_trend_analysis` writes only to the fresh object produced by
`sort_values` (or writes nothing on its early guard), and
`add_moving_averages` writes only to its copy — so the caller's ref reads
the very same frame afterwards. -/
theorem c10_no_mutation (s : List Frame) (r : Nat) (h : r < s.length)
    (metrics columns : List String) (k : Nat) (periods : List Nat) :
    readS ((calculate_financial_ratiosS s r).1) r = readS s r
  ∧ readS ((calculate_trend_analysisS s r metrics k).1) r = readS s r
  ∧ readS ((add_moving_averagesS s r columns periods).1) r = readS s r := by
  have hne : r ≠ s.length := Nat.ne_of_lt h
  refine ⟨?_, ?_, ?_⟩
  · simp only [calculate_financial_ratiosS, writeS, List.foldl]
    rw [readS_set_ne _ _ _ _ hne, readS_set_ne _ _ _ _ hne,
      readS_set_ne _ _ _ _ hne, readS_set_ne _ _ _ _ hne,
      readS_set_ne _ _ _ _ hne, readS_append _ _ _ h]
  · simp only [calculate_trend_analysisS]
    split
    · rfl
    · exact readS_append _ _ _ h
  · exact readS_append _ _ _ h

/-- **C10**, witness: a two-row, three-column frame object is unchanged
under all three calls. -/
theorem c10_no_mutation_witness :
    readS ((calculate_financial_ratiosS [c10frame] 0).1) 0 = readS [c10frame] 0
  ∧ readS ((calculate_trend_analysisS [c10frame] 0 ["IQ_EBITDA_A"] 3).1) 0
      = readS [c10frame] 0
  ∧ readS ((add_moving_averagesS [c10frame] 0 ["IQ_EBITDA_A"] [3, 5]).1) 0
      = readS [c10frame] 0 :=
  c10_no_mutation [c10frame] 0 (by decide) ["IQ_EBITDA_A"] ["IQ_EBITDA_A"] 3 [3, 5]

/-- **C9**, counterexample.  The claim says the recent-trend statistic is
defined whenever `0 < n < k`.  With two rows (`n = 1` growth observation)
and window `k = 3`, `len(df) >= periods` fails and the code stores NaN,
although the single growth value 100 exists. -/
theorem c9_counterexample :
    ((calculate_trend_analysis c9frame ["M"] 3).2.lookup "M").map
      (fun e => e.recent) = some ACell.na ∧
    yoyListSpec [100, 200] = [100] := by
  refine ⟨rfl, ?_⟩
  norm_num [yoyListSpec]

/-- **C9** (amended).  The recent-trend statistic of
`calculate_trend_analysis` on a fully populated, nonzero metric series:
whenever the frame has at least `k` rows it equals the mean of the last
`min(k, n)` year-over-year growth values (the spec's statistic — the
NaN-skipping mean makes the `len = k` case come out to the `n = k - 1`
available values); but with fewer than `k` rows it is stored as missing,
even though `n = len - 1 > 0` growth observations exist. -/
theorem c9_recent_trend (k : Nat) (y0 : ℚ) (xs : List ℚ)
    (hx : ∀ x ∈ xs, x ≠ 0) (hk1 : 1 ≤ k) (h2 : 2 ≤ xs.length) :
    (k ≤ xs.length →
      ((calculate_trend_analysis (trendFrame y0 xs) ["M"] k).2.lookup "M").map
        (fun e => e.recent) = some (ACell.num (specRecentTrend k xs)))
  ∧ (xs.length < k →
      ((calculate_trend_analysis (trendFrame y0 xs) ["M"] k).2.lookup "M").map
        (fun e => e.recent) = some ACell.na ∧ 0 < (yoyListSpec xs).length) := by
  cases xs with
  | nil => simp at h2
  | cons x rest =>
  have h2b : 1 ≤ rest.length := by simpa using h2
  have hguard : calculate_trend_analysis (trendFrame y0 (x :: rest)) ["M"] k
      = trendStep k (trendFrame y0 (x :: rest), []) "M" := by
    unfold calculate_trend_analysis
    rw [if_neg ?_]
    · rw [sortByYear_trendFrame]
      rfl
    · rw [show (trendFrame y0 (x :: rest)).cols.contains "Year" = true from rfl]
      simp [trendFrame]
  have hn1 : ((trendFrame y0 (x :: rest)).setCol ("M" ++ "_YOY")
      (ACell.na :: (yoyListSpec (x :: rest)).map ACell.num)).rows.length
      = (x :: rest).length := by
    rw [setCol_rows_length, trendFrame_rows_length]
    simp [yoyListSpec_length]
  constructor
  · intro hk
    have hkb : k ≤ rest.length + 1 := by simpa using hk
    rw [hguard]
    unfold trendStep
    dsimp only
    rw [show ((trendFrame y0 (x :: rest)).cols.contains "M") = true from rfl]
    simp only [Bool.not_true, Bool.false_eq_true, if_false, List.nil_append]
    simp only [List.lookup, beq_self_eq_true, Option.map_some']
    rw [getColM y0 (x :: rest)]
    rw [pct_yoy x rest hx]
    rw [hn1]
    rw [if_pos hk]
    have hn2 : (((trendFrame y0 (x :: rest)).setCol ("M" ++ "_YOY")
        (ACell.na :: (yoyListSpec (x :: rest)).map ACell.num)).setCol
          ("M" ++ "_MA" ++ toString k)
          (rollingMean k ((x :: rest).map ACell.num))).rows.length
        = (x :: rest).length := by
      rw [setCol_rows_length, hn1, rollingMean_length]
      simp
    rw [hn2]
    rw [if_pos hk]
    rw [takeLast_meanCell k (yoyListSpec (x :: rest)) ?_ hk1 ?_]
    · rfl
    · have hlen := yoyListSpec_length (x :: rest)
      intro he
      rw [he] at hlen
      simp at hlen
      omega
    · rw [yoyListSpec_length]
      simp
      omega
  · intro hlt
    have hltb : rest.length + 1 < k := by simpa using hlt
    constructor
    · rw [hguard]
      unfold trendStep
      dsimp only
      rw [show ((trendFrame y0 (x :: rest)).cols.contains "M") = true from rfl]
      simp only [Bool.not_true, Bool.false_eq_true, if_false, List.nil_append]
      simp only [List.lookup, beq_self_eq_true, Option.map_some']
      rw [getColM y0 (x :: rest)]
      rw [pct_yoy x rest hx]
      rw [hn1]
      rw [if_neg (show ¬((x :: rest).length ≥ k) by
        simp only [List.length_cons]
        omega)]
      rw [hn1]
      rw [if_neg (show ¬((x :: rest).length ≥ k) by
        simp only [List.length_cons]
        omega)]
    · rw [yoyListSpec_length]
      simp
      omega

/-- **C9**, witness: on the three-year series 100, 200, 100 with window
2 the recent trend is the spec's statistic (the mean of the last two
growth rates, 25%); on the two-year series 100, 200 with window 3 it is
missing although one growth observation exists. -/
theorem c9_recent_trend_witness :
    (((calculate_trend_analysis (trendFrame 2023 [100, 200, 100]) ["M"] 2).2.lookup
        "M").map (fun e => e.recent)
      = some (ACell.num (specRecentTrend 2 [100, 200, 100])))
  ∧ (((calculate_trend_analysis (trendFrame 2024 [100, 200]) ["M"] 3).2.lookup
        "M").map (fun e => e.recent) = some ACell.na)
  ∧ specRecentTrend 2 [100, 200, 100] = 25 := by
  have hx3 : ∀ x ∈ [(100 : ℚ), 200, 100], x ≠ 0 := by
    intro x hx
    simp at hx
    rcases hx with rfl | rfl | rfl <;> norm_num
  have hx2 : ∀ x ∈ [(100 : ℚ), 200], x ≠ 0 := by
    intro x hx
    simp at hx
    rcases hx with rfl | rfl <;> norm_num
  refine ⟨(c9_recent_trend 2 2023 [100, 200, 100] hx3 (by norm_num)
      (by norm_num)).1 (by norm_num),
    ((c9_recent_trend 3 2024 [100, 200] hx2 (by norm_num) (by norm_num)).2
      (by norm_num)).1, ?_⟩
  norm_num [specRecentTrend, yoyListSpec, qTakeLast, meanQ]

/-- Symbolic evaluation of the debt-to-equity pass on a matched
single-row frame: the stored cell is the row-wise guarded division of
lines 168–172. -/
lemma lev_eval (l a : ℚ) :
    (calculate_leverage_ratios
        ⟨["IQ_TOTAL_LIAB_A", "IQ_TOTAL_ASSETS_A"], [[ACell.num l, ACell.num a]]⟩).getCol
      "DEBT_TO_EQUITY_RATIO_A"
    = [if ACell.num (a - l) ≠ ACell.num 0
       then (ACell.num l).div (ACell.num (a - l)) else ACell.na] := by rfl

/-- Symbolic evaluation of the EBITDA-margin pass on a matched single-row
frame: the stored cell is the unguarded `ebitda / revenue * 100` of
line 61. -/
lemma prof_eval (e d : ℚ) :
    (calculate_profitability_ratios
        ⟨["IQ_EBITDA_A", "IQ_TOTAL_REV_A"], [[ACell.num e, ACell.num d]]⟩).getCol
      "EBITDA_MARGIN_A"
    = [((ACell.num e).div (ACell.num d)).mul (ACell.num 100)] := by rfl

/-- **C2** (amended).  Zero-denominator behavior of the Ratio Engine as
implemented: the debt-to-equity pass stores a missing value when equity
(assets − liabilities) is exactly 0, but the profitability passes divide
unguarded, so a zero revenue yields `+inf` for a positive EBITDA, `-inf`
for a negative one, and a missing value only when the numerator is 0 as
well.  (No pass can raise: every input produces a result frame.) -/
theorem c2_zero_denominator (l a e : ℚ) :
    (a - l = 0 →
      (calculate_leverage_ratios
          ⟨["IQ_TOTAL_LIAB_A", "IQ_TOTAL_ASSETS_A"], [[ACell.num l, ACell.num a]]⟩).getCol
        "DEBT_TO_EQUITY_RATIO_A" = [ACell.na])
  ∧ (calculate_profitability_ratios
        ⟨["IQ_EBITDA_A", "IQ_TOTAL_REV_A"], [[ACell.num e, ACell.num 0]]⟩).getCol
      "EBITDA_MARGIN_A"
    = [if e = 0 then ACell.na else if 0 < e then ACell.pinf else ACell.ninf] := by
  constructor
  · intro h
    rw [lev_eval, h]
    simp
  · rw [prof_eval]
    by_cases he : e = 0
    · norm_num [ACell.div, ACell.mul, he]
    · by_cases hp : 0 < e
      · norm_num [ACell.div, ACell.mul, he, hp]
      · norm_num [ACell.div, ACell.mul, he, hp]

/-- **C2**, witness: equity exactly zero stores a missing value; EBITDA 5
over revenue 0 stores `+inf`. -/
theorem c2_zero_denominator_witness :
    (calculate_leverage_ratios
        ⟨["IQ_TOTAL_LIAB_A", "IQ_TOTAL_ASSETS_A"], [[ACell.num 3, ACell.num 3]]⟩).getCol
      "DEBT_TO_EQUITY_RATIO_A" = [ACell.na] ∧
    (calculate_profitability_ratios
        ⟨["IQ_EBITDA_A", "IQ_TOTAL_REV_A"], [[ACell.num 5, ACell.num 0]]⟩).getCol
      "EBITDA_MARGIN_A" = [ACell.pinf] := by
  constructor
  · exact (c2_zero_denominator 3 3 0).1 (by norm_num)
  · have h := (c2_zero_denominator 3 3 5).2
    norm_num at h
    exact h

/-- The market-cap branch chain of lines 538–553, with the (decidably
false) mnemonic comparisons discharged. -/
lemma normalize_marketcap_eq (v : ℚ) :
    normalize_value "IQ_MARKETCAP" v =
      if v > 1000 then
        (if v > 1000000 then v * 1000 else if v < 100 then v * 1000000 else v)
      else if |v| > 1000000 then v / 1000000 else v := by
  unfold normalize_value
  rw [if_neg (by decide)]
  norm_num [eq_false (show ¬ ("IQ_MARKETCAP" : String) = "IQ_PE_RATIO" by decide),
    eq_false (show ¬ ("IQ_MARKETCAP" : String) = "IQ_PRICE_CLOSE" by decide)]

/-- **C5** (amended).  The market-cap rule as the code actually has it:
a value above one million is multiplied by 1,000 (so 2,500,000 normalizes
to 2,500,000,000 — the billions branch of the claim holds), but because
the trillions test `value < 100` is nested inside the `value > 1000`
guard, every non-negative value up to one million — including all values
below 100 — passes through unchanged. -/
theorem c5_marketcap_rule (v : ℚ) :
    (v > 1000000 → normalize_value "IQ_MARKETCAP" v = v * 1000)
  ∧ (0 ≤ v → v ≤ 1000000 → normalize_value "IQ_MARKETCAP" v = v)
  ∧ normalize_value "IQ_MARKETCAP" 2500000 = 2500000000 := by
  refine ⟨?_, ?_, by rw [normalize_marketcap_eq]; norm_num⟩
  · intro h
    rw [normalize_marketcap_eq, if_pos (by linarith), if_pos h]
  · intro h0 h1
    rw [normalize_marketcap_eq]
    by_cases h2 : v > 1000
    · rw [if_pos h2, if_neg (by linarith), if_neg (by linarith)]
    · rw [if_neg h2, if_neg (by rw [abs_of_nonneg h0]; linarith)]

/-- **C5**, witness: both provable branches of the amended rule at the
claim's own sample points. -/
theorem c5_marketcap_rule_witness :
    normalize_value "IQ_MARKETCAP" 2500000 = 2500000 * 1000 ∧
    normalize_value "IQ_MARKETCAP" 50 = 50 := by
  exact ⟨(c5_marketcap_rule 2500000).1 (by norm_num),
    (c5_marketcap_rule 50).2.1 (by norm_num) (by norm_num)⟩

/-- **C4** (amended).  The Value Extractor as implemented: the value
column is identified only for the seven financial mnemonics (everything
else returns no column and is skipped); for those, a global `Value`
column wins outright; a row's `Value` cell yields its number directly, or
its parsed number when it is a comma-stripped numeric string that is not
date-like and not an unavailability sentinel; when the `Value` cell fails,
the remaining non-metadata columns are scanned in frame order and the
first numeric cell wins. -/
theorem c4_value_extractor :
    (∀ mn : String, mn ∉ fin7 →
      ∀ (cols : List String) (first : FlatRec), findValueCol mn cols first = none)
  ∧ (∀ mn ∈ fin7, ∀ (cols : List String) (first : FlatRec), "Value" ∈ cols →
      findValueCol mn cols first = some "Value")
  ∧ (∀ (cols : List String) (row : FlatRec) (q : ℚ),
      rowGet row "Value" = CellVal.numv q →
      extractRowValue "Value" cols row = some q)
  ∧ (∀ (cols : List String) (row : FlatRec) (s : List Char) (q : ℚ),
      rowGet row "Value" = CellVal.strv s →
      pyHasCh '/' s = false → pyHasCh '-' s = false →
      pyLower s ∉ sentinels → pyFloatClean s = some q →
      extractRowValue "Value" cols row = some q)
  ∧ (∀ q : ℚ, extractRowValue "Value" c4cols (c4fallbackRow q) = some q) := by
  refine ⟨?_, ?_, ?_, ?_, fun q => rfl⟩
  · intro mn h cols first
    simp [findValueCol, h]
  · intro mn h cols first hv
    simp [findValueCol, h, hv]
  · intro cols row q h
    simp [extractRowValue, h]
  · intro cols row s q h1 h2 h3 h4 h5
    simp [extractRowValue, h1, h2, h3, h4, h5]

/-- **C4**, witness: a market-data mnemonic gets no value column even
with a `Value` column present; a financial mnemonic does; a numeric
`Value` cell, a comma-grouped string cell and the fallback scan all
return the expected numbers. -/
theorem c4_value_extractor_witness :
    findValueCol "IQ_MARKETCAP" (globalCols [c4rec]) c4rec = none ∧
    findValueCol "IQ_TOTAL_REV" c4cols (c4fallbackRow 7) = some "Value" ∧
    extractRowValue "Value" (globalCols [c4finRec]) c4finRec = some 123456 ∧
    ((pyFloatClean "1,234".data).isSome = true ∧
      extractRowValue "Value" [] c4strRow = pyFloatClean "1,234".data) ∧
    extractRowValue "Value" c4cols (c4fallbackRow 7) = some 7 := by
  have h := c4_value_extractor
  have hs : (pyFloatClean "1,234".data).isSome = true := by decide
  obtain ⟨q, hq⟩ := Option.isSome_iff_exists.mp hs
  refine ⟨h.1 "IQ_MARKETCAP" (by decide) (globalCols [c4rec]) c4rec,
    h.2.1 "IQ_TOTAL_REV" (by decide) c4cols (c4fallbackRow 7) (by decide),
    h.2.2.1 (globalCols [c4finRec]) c4finRec 123456 rfl,
    ⟨hs, ?_⟩, h.2.2.2.2 7⟩
  rw [hq]
  exact h.2.2.2.1 [] c4strRow "1,234".data q rfl (by decide) (by decide)
    (by decide) hq

end Xylo
